import Mathlib

/-!
Verification of the AGV RTLS ingestion pipeline against its specification.

Shallow embedding of the pipeline components:
* `BufferManager` (src/ingestion/buffer_manager.py)
* `MQTTConsumer._flush_buffer` (src/ingestion/mqtt_consumer.py)
* `DataValidator` (src/ingestion/data_validator.py)
* `TransformManager.to_plant_coords` (src/core/transforms.py)
* `ZoneManager.check_zone_rules` (src/core/zone_manager.py)
* `AnomalyDetector` (src/analytics/anomaly_detector.py)

Floats are modelled as rationals (ℚ), except where the source computes
square roots or trigonometric functions, where reals (ℝ) are used.
External collaborators (database, MQTT broker, the pyproj transformer and
the sklearn IsolationForest) are abstracted as parameters.
-/

namespace AGV

/-! ## Python `collections.deque` with `maxlen`

`deque(maxlen=n).append(x)` appends `x` on the right; when the deque is
full the LEFTMOST (oldest) element is discarded.  `append` never raises. -/

def dequeAppend (maxlen : ℕ) (xs : List α) (x : α) : List α :=
  if maxlen < (xs ++ [x]).length then
    (xs ++ [x]).drop ((xs ++ [x]).length - maxlen)
  else xs ++ [x]

theorem dequeAppend_length_le (maxlen : ℕ) (xs : List α) (x : α)
    (h : xs.length ≤ maxlen) : (dequeAppend maxlen xs x).length ≤ maxlen := by
  unfold dequeAppend
  split
  · simp only [List.length_drop, List.length_append, List.length_cons,
      List.length_nil]
    omega
  · rename_i hc
    simp only [List.length_append, List.length_cons, List.length_nil] at hc ⊢
    omega

theorem dequeAppend_of_lt (maxlen : ℕ) (xs : List α) (x : α)
    (h : xs.length < maxlen) : dequeAppend maxlen xs x = xs ++ [x] := by
  unfold dequeAppend
  rw [if_neg]
  simp only [List.length_append, List.length_cons, List.length_nil, not_lt]
  omega

theorem dequeAppend_of_full (maxlen : ℕ) (xs : List α) (x : α)
    (hpos : 0 < maxlen) (h : xs.length = maxlen) :
    dequeAppend maxlen xs x = xs.tail ++ [x] := by
  unfold dequeAppend
  rw [if_pos]
  · cases xs with
    | nil =>
      simp only [List.length_nil] at h
      omega
    | cons y ys =>
      simp only [List.length_cons] at h
      simp only [List.length_append, List.length_cons, List.length_nil]
      rw [show ys.length + 1 + 1 - maxlen = 1 by omega]
      simp
  · simp only [List.length_append, List.length_cons, List.length_nil]
    omega

theorem mem_dequeAppend (maxlen : ℕ) (xs : List α) (x : α) (y : α)
    (h : y ∈ dequeAppend maxlen xs x) : y ∈ xs ++ [x] := by
  unfold dequeAppend at h
  split at h
  · exact List.mem_of_mem_drop h
  · exact h

/-! ## BufferManager (src/ingestion/buffer_manager.py)

State of a `BufferManager`: main deque (capacity `max_size`), retry deque
(capacity 1000), and the statistics counters.  Buffered payloads are
abstracted by a type parameter `α` (the Python code buffers dicts). -/

structure RetryItem (α : Type) where
  data : α
  timestamp : ℤ
  attempts : ℕ
  deriving DecidableEq, Repr

structure BufferStats where
  added : ℕ
  flushed : ℕ
  dropped : ℕ
  retried : ℕ
  deriving DecidableEq, Repr

structure BufferManager (α : Type) where
  max_size : ℕ
  buffer : List α
  retry_buffer : List (RetryItem α)
  stats : BufferStats
  deriving DecidableEq, Repr

namespace BufferManager

/-- `BufferManager.__init__(max_size)`. -/
def init (α : Type) (max_size : ℕ) : BufferManager α :=
  ⟨max_size, [], [], ⟨0, 0, 0, 0⟩⟩

/-- `BufferManager.add(data, retry)`.  `deque.append` never raises, so the
`except` branch of the source (which would increment `dropped`) is
unreachable; `add` always returns `True`.  `now` stands for
`datetime.now()` recorded on a retry item. -/
def add (m : BufferManager α) (data : α) (now : ℤ) (retry : Bool) :
    BufferManager α × Bool :=
  if retry then
    (⟨m.max_size, m.buffer,
      dequeAppend 1000 m.retry_buffer ⟨data, now, 1⟩,
      ⟨m.stats.added, m.stats.flushed, m.stats.dropped, m.stats.retried + 1⟩⟩,
     true)
  else
    (⟨m.max_size, dequeAppend m.max_size m.buffer data, m.retry_buffer,
      ⟨m.stats.added + 1, m.stats.flushed, m.stats.dropped, m.stats.retried⟩⟩,
     true)

/-- `BufferManager.get_batch(size)`: pops `min(size, len(buffer))` items
from the left and adds the batch length to `flushed`. -/
def get_batch (m : BufferManager α) (size : Option ℕ) :
    BufferManager α × List α :=
  let sz := size.getD m.buffer.length
  let n := min sz m.buffer.length
  let batch := m.buffer.take n
  (⟨m.max_size, m.buffer.drop n, m.retry_buffer,
    ⟨m.stats.added, m.stats.flushed + batch.length, m.stats.dropped,
     m.stats.retried⟩⟩,
   batch)

end BufferManager

/-- A client-visible operation on a `BufferManager` (claim C1 quantifies
over sequences of `add` and `get_batch` calls). -/
inductive BufOp (α : Type) where
  | add (data : α) (now : ℤ)
  | getBatch (size : Option ℕ)

def runBufOps (ops : List (BufOp α)) (m : BufferManager α) : BufferManager α :=
  ops.foldl
    (fun acc op =>
      match op with
      | BufOp.add d now => (acc.add d now false).1
      | BufOp.getBatch sz => (acc.get_batch sz).1)
    m

theorem runBufOps_buffer_le (ops : List (BufOp α)) (m : BufferManager α)
    (h : m.buffer.length ≤ m.max_size) :
    (runBufOps ops m).buffer.length ≤ (runBufOps ops m).max_size := by
  induction ops generalizing m with
  | nil => exact h
  | cons op rest ih =>
    cases op with
    | add d now =>
      exact ih _ (dequeAppend_length_le _ _ _ h)
    | getBatch sz =>
      refine ih _ ?_
      simp only [BufferManager.get_batch, List.length_drop]
      omega

theorem runBufOps_max_size (ops : List (BufOp α)) (m : BufferManager α) :
    (runBufOps ops m).max_size = m.max_size := by
  induction ops generalizing m with
  | nil => rfl
  | cons op rest ih =>
    cases op with
    | add d now => exact ih _
    | getBatch sz => exact ih _

/-! ## MQTTConsumer._flush_buffer (src/ingestion/mqtt_consumer.py)

`_flush_buffer` drains the whole main buffer with `get_batch()`, attempts
one batched database write, and on failure re-adds every item of the
failed batch with `retry=True`.  The database is abstracted by the
`success` flag of the write. -/

def flush_buffer (m : BufferManager α) (now : ℤ) (success : Bool) :
    BufferManager α :=
  if (m.get_batch none).2.isEmpty then (m.get_batch none).1
  else if success then (m.get_batch none).1
  else (m.get_batch none).2.foldl
    (fun acc item => (acc.add item now true).1) (m.get_batch none).1

/-- An operation of the running consumer that touches the buffer manager:
`msg d` is the `on_message` path ending in `buffer.add(data)`; `flush` is
`_flush_buffer` (triggered by `should_flush` or the 1-second periodic
task), with the write outcome made explicit.  No other code path of the
repository touches the buffer manager. -/
inductive ConsOp (α : Type) where
  | msg (data : α)
  | flush (now : ℤ) (success : Bool)

def runConsOps (ops : List (ConsOp α)) (m : BufferManager α) :
    BufferManager α :=
  ops.foldl
    (fun acc op =>
      match op with
      | ConsOp.msg d => (acc.add d 0 false).1
      | ConsOp.flush now success => flush_buffer acc now success)
    m

theorem attempts_one_of_foldl_retry (batch : List α) (m : BufferManager α)
    (now : ℤ) (h : ∀ it ∈ m.retry_buffer, it.attempts = 1) :
    ∀ it ∈ (batch.foldl (fun acc item => (acc.add item now true).1)
        m).retry_buffer, it.attempts = 1 := by
  induction batch generalizing m with
  | nil => exact h
  | cons b rest ih =>
    refine ih _ ?_
    intro it hit
    simp only [BufferManager.add, if_pos] at hit
    rcases List.mem_append.mp (mem_dequeAppend _ _ _ _ hit) with h1 | h1
    · exact h it h1
    · simp only [List.mem_singleton] at h1
      subst h1
      rfl

theorem flush_buffer_attempts_one (m : BufferManager α) (now : ℤ)
    (success : Bool) (h : ∀ it ∈ m.retry_buffer, it.attempts = 1) :
    ∀ it ∈ (flush_buffer m now success).retry_buffer, it.attempts = 1 := by
  unfold flush_buffer
  split
  · exact h
  · split
    · exact h
    · exact attempts_one_of_foldl_retry _ _ _ h

theorem runConsOps_attempts_one (ops : List (ConsOp α))
    (m : BufferManager α) (h : ∀ it ∈ m.retry_buffer, it.attempts = 1) :
    ∀ it ∈ (runConsOps ops m).retry_buffer, it.attempts = 1 := by
  induction ops generalizing m with
  | nil => exact h
  | cons op rest ih =>
    cases op with
    | msg d =>
      refine ih _ ?_
      intro it hit
      simp only [BufferManager.add, if_neg Bool.false_ne_true] at hit
      exact h it hit
    | flush now success =>
      exact ih _ (flush_buffer_attempts_one _ _ _ h)

theorem flush_buffer_success_retry (m : BufferManager α) (now : ℤ) :
    (flush_buffer m now true).retry_buffer = m.retry_buffer := by
  unfold flush_buffer
  split
  · rfl
  · rw [if_pos rfl]
    rfl

/-! ## DataValidator (src/ingestion/data_validator.py)

A raw reading as seen by the validator.  Numeric JSON values are modelled
as rationals, timestamps by their parse outcome (`fromisoformat` either
raises — swallowed by the bare `except` — or yields a time, modelled in
seconds so that `age = now - t`). -/

inductive TsParse where
  | unparseable
  | parsed (t : ℤ)
  deriving DecidableEq, Repr

structure RawData where
  agv_id : Option String
  ts : Option TsParse
  lat : Option ℚ
  lon : Option ℚ
  plant_x : Option ℚ
  plant_y : Option ℚ
  heading_deg : Option ℚ
  speed_mps : Option ℚ
  quality : Option ℚ
  battery_percent : Option ℚ
  status : Option String
  deriving DecidableEq

/-- A jsonschema `minimum`/`maximum` pair on an optional property. -/
def inRangeOpt (o : Option ℚ) (lo hi : ℚ) : Bool :=
  match o with
  | none => true
  | some v => decide (lo ≤ v) && decide (v ≤ hi)

/-- A jsonschema `minimum` bound alone (the schema gives `speed_mps` no
`maximum`). -/
def minOpt (o : Option ℚ) (lo : ℚ) : Bool :=
  match o with
  | none => true
  | some v => decide (lo ≤ v)

/-- `jsonschema.validate(data, self.schema)` for the schema built by
`DataValidator._get_schema`: `agv_id` required, a string of length ≥ 1;
every other property optional with the stated numeric bounds. -/
def schemaOK (d : RawData) : Bool :=
  (match d.agv_id with
   | none => false
   | some s => decide (1 ≤ s.length)) &&
  inRangeOpt d.lat (-90) 90 &&
  inRangeOpt d.lon (-180) 180 &&
  inRangeOpt d.heading_deg 0 360 &&
  minOpt d.speed_mps 0 &&
  inRangeOpt d.quality 0 1 &&
  inRangeOpt d.battery_percent 0 100

/-- `DataValidator._validate_business_rules`: reject a parseable
timestamp older than 3600 s (an unparseable one passes, the `except`
swallows it) and reject `speed_mps > 10`. -/
def validate_business_rules (d : RawData) (now : ℤ) : Bool :=
  (match d.ts with
   | some (TsParse.parsed t) => decide (¬ (3600 < now - t))
   | _ => true) &&
  (match d.speed_mps with
   | some v => decide (¬ (10 < v))
   | none => true)

structure VStats where
  valid : ℕ
  invalid : ℕ
  deriving DecidableEq, Repr

/-- `DataValidator.validate`: schema check, then business rules; updates
exactly one of the two counters. -/
def validate (st : VStats) (d : RawData) (now : ℤ) : Bool × VStats :=
  if schemaOK d then
    if validate_business_rules d now then (true, ⟨st.valid + 1, st.invalid⟩)
    else (false, ⟨st.valid, st.invalid + 1⟩)
  else (false, ⟨st.valid, st.invalid + 1⟩)

theorem inRangeOpt_iff (o : Option ℚ) (lo hi : ℚ) :
    inRangeOpt o lo hi = true ↔ ∀ v, o = some v → lo ≤ v ∧ v ≤ hi := by
  cases o <;> simp [inRangeOpt]

theorem minOpt_iff (o : Option ℚ) (lo : ℚ) :
    minOpt o lo = true ↔ ∀ v, o = some v → lo ≤ v := by
  cases o <;> simp [minOpt]

theorem validate_fst_iff (st : VStats) (d : RawData) (now : ℤ) :
    (validate st d now).1 = true ↔
      schemaOK d = true ∧ validate_business_rules d now = true := by
  unfold validate
  split_ifs with h1 h2 <;> simp_all

theorem one_le_length_iff (s : String) : 1 ≤ s.length ↔ s ≠ "" := by
  cases s with
  | mk data =>
    cases data with
    | nil => simp [String.length]
    | cons c cs => simp [String.length, String.ext_iff]

theorem schemaOK_iff (d : RawData) : schemaOK d = true ↔
    ((∃ s, d.agv_id = some s ∧ s ≠ "") ∧
     (∀ v, d.lat = some v → -90 ≤ v ∧ v ≤ 90) ∧
     (∀ v, d.lon = some v → -180 ≤ v ∧ v ≤ 180) ∧
     (∀ v, d.heading_deg = some v → 0 ≤ v ∧ v ≤ 360) ∧
     (∀ v, d.speed_mps = some v → 0 ≤ v) ∧
     (∀ v, d.quality = some v → 0 ≤ v ∧ v ≤ 1) ∧
     (∀ v, d.battery_percent = some v → 0 ≤ v ∧ v ≤ 100)) := by
  unfold schemaOK
  simp only [Bool.and_eq_true, inRangeOpt_iff, minOpt_iff, and_assoc]
  cases hA : d.agv_id with
  | none => simp
  | some s => simp [one_le_length_iff]

theorem business_rules_iff (d : RawData) (now : ℤ) :
    validate_business_rules d now = true ↔
      ((∀ t, d.ts = some (TsParse.parsed t) → now - t ≤ 3600) ∧
       (∀ v, d.speed_mps = some v → v ≤ 10)) := by
  unfold validate_business_rules
  simp only [Bool.and_eq_true]
  have h1 : (match d.ts with
      | some (TsParse.parsed t) => decide (¬ (3600 < now - t))
      | _ => true) = true ↔
      (∀ t, d.ts = some (TsParse.parsed t) → now - t ≤ 3600) := by
    cases hts : d.ts with
    | none => simp
    | some tp =>
      cases tp with
      | unparseable => simp
      | parsed t => simp [not_lt]
  have h2 : (match d.speed_mps with
      | some v => decide (¬ (10 < v))
      | none => true) = true ↔
      (∀ v, d.speed_mps = some v → v ≤ 10) := by
    cases hs : d.speed_mps with
    | none => simp
    | some v => simp [not_lt]
  rw [h1, h2]

/-! ## TransformManager.to_plant_coords (src/core/transforms.py)

The pyproj WGS84→UTM transformer is external; it is abstracted as a
function argument `transformer` (called as `transformer.transform(lon,
lat)` in the source).  The affine calibration matrix is 3×3 homogeneous;
only its first two rows reach the output, so those six entries model it.
The memoization cache `self.cache` is a Python dict keyed by
`(data.get('lat'), data.get('lon'))`; it is modelled as an insertion-
ordered association list, matching dict semantics because keys are only
ever inserted after a failed lookup. -/

structure AffineM where
  m00 : ℚ
  m01 : ℚ
  m02 : ℚ
  m10 : ℚ
  m11 : ℚ
  m12 : ℚ
  deriving DecidableEq, Repr

/-- `self.affine_matrix @ np.array([utm_x, utm_y, 1.0])`, first two
components. -/
def applyAffine (M : AffineM) (x y : ℚ) : ℚ × ℚ :=
  (M.m00 * x + M.m01 * y + M.m02, M.m10 * x + M.m11 * y + M.m12)

structure TData where
  plant_x : Option ℚ
  plant_y : Option ℚ
  lat : Option ℚ
  lon : Option ℚ
  deriving DecidableEq, Repr

structure TransformState where
  cache : List ((Option ℚ × Option ℚ) × (ℚ × ℚ))
  deriving DecidableEq, Repr

/-- Python dict lookup `self.cache[cache_key]` guarded by
`cache_key in self.cache`, over the association-list model. -/
def cacheLookup (cache : List ((Option ℚ × Option ℚ) × (ℚ × ℚ)))
    (k : Option ℚ × Option ℚ) : Option (ℚ × ℚ) :=
  match cache with
  | [] => none
  | (k', v) :: rest => if k = k' then some v else cacheLookup rest k

/-- `TransformManager.to_plant_coords(data)`: pass local coordinates
through untouched when both are present; otherwise consult the cache,
else project, apply the affine matrix when one is loaded, and cache the
result.  (The out-of-bounds check of the source only logs a warning and
does not alter the returned value or the cache, so it has no observable
effect here.) -/
def to_plant_coords (transformer : ℚ → ℚ → ℚ × ℚ) (affine : Option AffineM)
    (st : TransformState) (d : TData) : (ℚ × ℚ) × TransformState :=
  match d.plant_x, d.plant_y with
  | some px, some py => ((px, py), st)
  | _, _ =>
    match cacheLookup st.cache (d.lat, d.lon) with
    | some v => (v, st)
    | none =>
      let u := transformer (d.lon.getD 0) (d.lat.getD 0)
      let p := match affine with
        | some M => applyAffine M u.1 u.2
        | none => u
      (p, ⟨st.cache ++ [((d.lat, d.lon), p)]⟩)

def runTransforms (transformer : ℚ → ℚ → ℚ × ℚ) (affine : Option AffineM)
    (ds : List TData) (st : TransformState) : TransformState :=
  ds.foldl (fun s d => (to_plant_coords transformer affine s d).2) st

/-- A family of pairwise-distinct (lat, lon) readings with no local
coordinates. -/
def distinctInput (i : ℕ) : TData := ⟨none, none, some (i : ℚ), some 0⟩

theorem cacheLookup_eq_none_of_not_mem_keys
    (l : List ((Option ℚ × Option ℚ) × (ℚ × ℚ))) (k : Option ℚ × Option ℚ)
    (h : k ∉ l.map Prod.fst) : cacheLookup l k = none := by
  induction l with
  | nil => rfl
  | cons p rest ih =>
    obtain ⟨k', v⟩ := p
    simp only [List.map_cons, List.mem_cons, not_or] at h
    simp only [cacheLookup, if_neg h.1]
    exact ih h.2

theorem to_plant_coords_miss (tr : ℚ → ℚ → ℚ × ℚ) (affine : Option AffineM)
    (st : TransformState) (i : ℕ)
    (hlk : cacheLookup st.cache (some (i : ℚ), some (0 : ℚ)) = none) :
    (to_plant_coords tr affine st (distinctInput i)).2.cache
      = st.cache ++ [((some (i : ℚ), some (0 : ℚ)),
          (to_plant_coords tr affine st (distinctInput i)).1)] := by
  simp only [to_plant_coords, distinctInput, hlk]

theorem runTransforms_distinct_keys (transformer : ℚ → ℚ → ℚ × ℚ)
    (affine : Option AffineM) (n : ℕ) :
    (runTransforms transformer affine ((List.range n).map distinctInput)
        ⟨[]⟩).cache.map Prod.fst
      = (List.range n).map (fun i : ℕ => (some (i : ℚ), some (0 : ℚ))) := by
  induction n with
  | zero => rfl
  | succ n ih =>
    rw [List.range_succ, List.map_append, List.map_append]
    unfold runTransforms at ih ⊢
    rw [List.foldl_append]
    have hlk : cacheLookup (((List.range n).map distinctInput).foldl
        (fun s d => (to_plant_coords transformer affine s d).2)
        (⟨[]⟩ : TransformState)).cache
          ((some (n : ℚ), some (0 : ℚ))) = none := by
      apply cacheLookup_eq_none_of_not_mem_keys
      rw [ih]
      simp only [List.mem_map, List.mem_range, not_exists, not_and]
      intro i hi heq
      have hq : (i : ℚ) = (n : ℚ) := by
        have := congrArg Prod.fst heq
        simpa using this
      have : i = n := by exact_mod_cast hq
      omega
    simp only [List.map_cons, List.map_nil, List.foldl_cons, List.foldl_nil]
    rw [to_plant_coords_miss transformer affine _ n hlk]
    rw [List.map_append, ih]
    simp

theorem runTransforms_cache_length (transformer : ℚ → ℚ → ℚ × ℚ)
    (affine : Option AffineM) (n : ℕ) :
    (runTransforms transformer affine ((List.range n).map distinctInput)
        ⟨[]⟩).cache.length = n := by
  have h := congrArg List.length
    (runTransforms_distinct_keys transformer affine n)
  simpa using h

/-! ## ZoneManager.check_zone_rules (src/core/zone_manager.py)

`self.zones` is a dict zone_id → zone row; the registry status (an
external database lookup in `_check_authorization`) and the current zone
occupancy (another database query in `_get_zone_occupancy`) are passed
as parameters.  Only the fields that `check_zone_rules` reads are
modelled. -/

structure Zone where
  zone_id : String
  zone_type : String
  max_speed_mps : Option ℚ
  max_agvs : ℕ
  deriving DecidableEq, Repr

structure Violation where
  vtype : String
  severity : String
  deriving DecidableEq, Repr

def dictLookup [DecidableEq κ] (l : List (κ × β)) (k : κ) : Option β :=
  match l with
  | [] => none
  | (k', v) :: rest => if k = k' then some v else dictLookup rest k

/-- Python truthiness of an optional number (`if speed and ...`): `None`,
`0` and `0.0` are falsy. -/
def pyTruthy (o : Option ℚ) : Bool :=
  match o with
  | none => false
  | some v => decide (v ≠ 0)

/-- `ZoneManager._check_authorization`: only MAINTENANCE zones consult
the registry (status row must be 'MAINTENANCE'); every other zone type —
including RESTRICTED — authorizes unconditionally.  A missing zone gives
`{}` whose `zone_type` is `None`, hence also `True`. -/
def check_authorization (zones : List (String × Zone))
    (registry : String → Option String) (agv_id zone_id : String) : Bool :=
  match dictLookup zones zone_id with
  | some z =>
    if z.zone_type = "MAINTENANCE" then
      match registry agv_id with
      | some status => decide (status = "MAINTENANCE")
      | none => false
    else true
  | none => true

/-- `ZoneManager.check_zone_rules(agv_id, zone_id, speed)`: speed-limit
check (guarded by Python truthiness of both operands), unauthorized-
access check (only for zone_type == 'RESTRICTED'), occupancy check. -/
def check_zone_rules (zones : List (String × Zone))
    (registry : String → Option String) (occupancy : ℕ)
    (agv_id zone_id : String) (speed : Option ℚ) : List Violation :=
  match dictLookup zones zone_id with
  | none => []
  | some zone =>
    (if pyTruthy speed && pyTruthy zone.max_speed_mps
        && decide (zone.max_speed_mps.getD 0 < speed.getD 0)
      then [⟨"SPEED_VIOLATION", "WARNING"⟩] else []) ++
    (if zone.zone_type = "RESTRICTED"
        && !(check_authorization zones registry agv_id zone_id)
      then [⟨"UNAUTHORIZED_ACCESS", "CRITICAL"⟩] else []) ++
    (if decide (zone.max_agvs ≤ occupancy)
      then [⟨"ZONE_FULL", "WARNING"⟩] else [])

/-! ## MQTTConsumer.on_message entity-id resolution
(src/ingestion/mqtt_consumer.py lines 107-110)

`topic_parts = msg.topic.split('/')`; when the topic has at least two
segments, `data['agv_id'] = data.get('agv_id', topic_parts[1])` — the
payload's own field wins, the topic segment is only the default. -/

/-- Python `str.split(sep)` for a one-character separator, on the
character list: `'a/b'.split('/') == ['a','b']`, `''.split('/') == ['']`. -/
def pySplit (sep : Char) (cs : List Char) : List (List Char) :=
  match cs with
  | [] => [[]]
  | c :: rest =>
    match pySplit sep rest with
    | [] => [[]]
    | hd :: tl => if c = sep then [] :: hd :: tl else (c :: hd) :: tl

def topicParts (topic : String) : List String :=
  (pySplit '/' topic.data).map (fun cs => ⟨cs⟩)

def resolveAgvId (payloadId : Option String) (topic : String) :
    Option String :=
  if 2 ≤ (topicParts topic).length then
    some (payloadId.getD ((topicParts topic).getD 1 ""))
  else payloadId

/-! ## AnomalyDetector (src/analytics/anomaly_detector.py)

Per-entity history is a `deque(maxlen=100)` (`history_window`).  The
default config: speed_threshold 5, acceleration_threshold 3,
quality_threshold 0.3, battery_threshold 15, idle_threshold 300,
sample rate `config.get('sample_rate_hz', 3) = 3` (the key is absent from
the default config).  The sklearn IsolationForest of `_ml_detection` is
external and abstracted as an `oracle` parameter; its ≥20-point history
gate is in repository code and is modelled.  Anomaly dicts are modelled
by their `type` and `severity` fields. -/

structure Reading where
  agv_id : String
  speed_mps : Option ℚ
  heading_deg : Option ℚ
  quality : Option ℚ
  battery_percent : Option ℚ
  plant_x : Option ℚ
  plant_y : Option ℚ
  deriving DecidableEq, Repr

structure Anomaly where
  atype : String
  severity : String
  deriving DecidableEq, Repr

/-- `AnomalyDetector._threshold_detection`: `data.get` defaults — speed
0, quality 1.0, battery 100. -/
def threshold_detection (d : Reading) : List Anomaly :=
  (if 5 < d.speed_mps.getD 0
    then [⟨"SPEED_VIOLATION", "WARNING"⟩] else []) ++
  (if d.quality.getD 1 < 3/10
    then [⟨"LOW_SIGNAL_QUALITY", "WARNING"⟩] else []) ++
  (if d.battery_percent.getD 100 < 15
    then [⟨"LOW_BATTERY",
      if 10 < d.battery_percent.getD 100 then "WARNING"
      else "CRITICAL"⟩]
    else [])

/-- `field in history_df.columns`: a pandas DataFrame built from a list
of dicts has the column iff some row carries the key. -/
def colExists (f : Reading → Option ℚ) (hist : List Reading) : Bool :=
  hist.any (fun r => (f r).isSome)

/-- `history_df[field].dropna()`. -/
def fieldValues (f : Reading → Option ℚ) (hist : List Reading) : List ℚ :=
  hist.filterMap f

/-- `np.abs(stats.zscore(values))[-1] > 3` without square roots: with
population variance `varp`, `|z| > 3 ↔ (x - mean)² > 9·varp` when
`varp > 0`; when `varp = 0` numpy yields NaN and `NaN > 3` is `False`,
and here `(x - mean)² = 0 > 0` is false as well. -/
def zLastExceeds3 (values : List ℚ) : Bool :=
  let n : ℚ := values.length
  let mean := values.sum / n
  let varp := (values.map (fun v => (v - mean) ^ 2)).sum / n
  let x := values.getLast?.getD 0
  decide (9 * varp < (x - mean) ^ 2)

/-- One field of the z-score loop of `_statistical_detection`. -/
def zFieldAnomaly (f : Reading → Option ℚ) (hist : List Reading) :
    List Anomaly :=
  if colExists f hist then
    if 3 < (fieldValues f hist).length then
      if zLastExceeds3 (fieldValues f hist)
        then [⟨"STATISTICAL_ANOMALY", "INFO"⟩] else []
    else []
  else []

/-- The acceleration part of `_statistical_detection`:
`current_accel = np.diff(speeds)[-1] * 3`; a missing speed value is NaN
in the column, a NaN acceleration fails the `abs(...) > 3` comparison. -/
def accelAnomaly (hist : List Reading) : List Anomaly :=
  if colExists Reading.speed_mps hist ∧ 1 < hist.length then
    match hist.getLast?, hist.dropLast.getLast? with
    | some r1, some r2 =>
      match r1.speed_mps, r2.speed_mps with
      | some a, some b =>
        if 3 < |(a - b) * 3|
          then [⟨"ACCELERATION_ANOMALY", "WARNING"⟩] else []
      | _, _ => []
    | _, _ => []
  else []

/-- `AnomalyDetector._statistical_detection` on the (post-append)
history: gate ≥ 10 points, z-score loop over speed, heading, quality,
then the acceleration check. -/
def statistical_detection (hist : List Reading) : List Anomaly :=
  if hist.length < 10 then []
  else
    zFieldAnomaly Reading.speed_mps hist ++
    zFieldAnomaly Reading.heading_deg hist ++
    zFieldAnomaly Reading.quality hist ++
    accelAnomaly hist

/-- `AnomalyDetector._ml_detection`: the ≥20-point gate is repository
code; the IsolationForest behind it is the external `oracle`. -/
def ml_detection (oracle : List Reading → Reading → List Anomaly)
    (hist : List Reading) (d : Reading) : List Anomaly :=
  if hist.length < 20 then [] else oracle hist d

/-- Idle part of `_pattern_detection`: count of the last 30 speed values
below 0.1 (NaN rows fail the comparison), divided by the sample rate 3;
`> 300` fires.  (Unreachable in fact: the count is at most 30.) -/
def idleCheck (hist : List Reading) : List Anomaly :=
  if colExists Reading.speed_mps hist then
    if decide ((300 : ℚ) <
        (((hist.map Reading.speed_mps).drop (hist.length - 30)).filter
          (fun o => match o with
            | some v => decide (v < 1/10)
            | none => false)).length / 3)
      then [⟨"EXCESSIVE_IDLE", "WARNING"⟩] else []
  else []

def circularCols (hist : List Reading) : Bool :=
  colExists Reading.plant_x hist && colExists Reading.plant_y hist

open Classical in
/-- Circular-movement part of `_pattern_detection`: over the last 20
rows of the position columns, ratio of net displacement to total path
length below 0.2 (with positive total length) fires.  A NaN in any used
row makes both numpy comparisons false, hence the all-present guard. -/
noncomputable def circularCheck (hist : List Reading) : List Anomaly :=
  if circularCols hist then
    if 10 < (hist.drop (hist.length - 20)).length then
      if (hist.drop (hist.length - 20)).all
          (fun r => r.plant_x.isSome && r.plant_y.isSome) then
        let pos : List (ℝ × ℝ) := (hist.drop (hist.length - 20)).map
          (fun r => (((r.plant_x.getD 0 : ℚ) : ℝ),
                     ((r.plant_y.getD 0 : ℚ) : ℝ)))
        let total : ℝ := ((pos.zip pos.tail).map
          (fun p => Real.sqrt ((p.2.1 - p.1.1) ^ 2 + (p.2.2 - p.1.2) ^ 2))).sum
        let disp : ℝ := Real.sqrt
          (((pos.getLast?.getD (0, 0)).1 - (pos.head?.getD (0, 0)).1) ^ 2 +
           ((pos.getLast?.getD (0, 0)).2 - (pos.head?.getD (0, 0)).2) ^ 2)
        if 0 < total ∧ disp / total < 1/5
          then [⟨"CIRCULAR_MOVEMENT", "WARNING"⟩] else []
      else []
    else []
  else []

/-- Erratic-heading part of `_pattern_detection`: wrap-around-corrected
absolute deltas of the last 10 heading values; mean above 45° fires.  A
NaN among them makes the mean NaN and the comparison false, hence the
all-present guard. -/
def erraticCheck (hist : List Reading) : List Anomaly :=
  if colExists Reading.heading_deg hist then
    if ((hist.map Reading.heading_deg).drop (hist.length - 10)).all
        Option.isSome then
      if decide ((45 : ℚ) <
          (let vals := ((hist.map Reading.heading_deg).drop
            (hist.length - 10)).filterMap id
           let changes := (vals.zip vals.tail).map
            (fun p => min |p.2 - p.1| (360 - |p.2 - p.1|))
           changes.sum / changes.length))
        then [⟨"ERRATIC_HEADING", "INFO"⟩] else []
    else []
  else []

/-- `AnomalyDetector._pattern_detection` on the post-append history:
gate ≥ 30 points, then idle, circular and erratic checks. -/
noncomputable def pattern_detection (hist : List Reading) : List Anomaly :=
  if hist.length < 30 then []
  else idleCheck hist ++ circularCheck hist ++ erraticCheck hist

/-- `self.history`: one deque per entity id, empty for unseen entities. -/
structure DetectorState where
  history : String → List Reading

/-- `AnomalyDetector.check(data)`: append to the entity's ring buffer
FIRST, then run the four detection methods on the post-append history
and concatenate their results. -/
noncomputable def check (oracle : List Reading → Reading → List Anomaly)
    (st : DetectorState) (d : Reading) : DetectorState × List Anomaly :=
  (⟨fun id => if id = d.agv_id
      then dequeAppend 100 (st.history d.agv_id) d
      else st.history id⟩,
   threshold_detection d ++
   statistical_detection (dequeAppend 100 (st.history d.agv_id) d) ++
   ml_detection oracle (dequeAppend 100 (st.history d.agv_id) d) d ++
   pattern_detection (dequeAppend 100 (st.history d.agv_id) d))

/-! Helper lemmas for the fixed C4 scenario: a history of 30 readings
with identical speed `s` and identical heading `h`, followed by one
reading with speed 8 (same heading). -/

def histR (s h : ℚ) : List Reading :=
  List.replicate 30 ⟨"A", some s, some h, none, none, none, none⟩

def lastR (h : ℚ) : Reading :=
  ⟨"A", some 8, some h, none, none, none, none⟩

theorem filterMap_replicate_some (f : Reading → Option ℚ) (r : Reading)
    (s : ℚ) (hf : f r = some s) (n : ℕ) :
    List.filterMap f (List.replicate n r) = List.replicate n s := by
  induction n with
  | zero => rfl
  | succ n ih =>
    rw [List.replicate_succ, List.replicate_succ, List.filterMap_cons, hf, ih]

theorem threshold_lastR (h : ℚ) :
    threshold_detection (lastR h) = [⟨"SPEED_VIOLATION", "WARNING"⟩] := by
  unfold threshold_detection lastR
  norm_num

theorem zLastExceeds3_replicate (s : ℚ) (hs : s ≠ 8) :
    zLastExceeds3 (List.replicate 30 s ++ [8]) = true := by
  unfold zLastExceeds3
  rw [decide_eq_true_eq]
  have hd : (0 : ℚ) < (s - 8) ^ 2 := by
    have h0 : s - 8 ≠ 0 := sub_ne_zero.mpr hs
    positivity
  simp only [List.length_append, List.length_replicate, List.length_cons,
    List.length_nil, List.sum_append, List.sum_replicate, List.map_append,
    List.map_replicate, List.getLast?_concat, List.sum_cons, List.sum_nil,
    Option.getD_some, nsmul_eq_mul, List.map_cons, List.map_nil]
  push_cast
  have e1 : s - (30 * s + (8 + 0)) / 31 = (s - 8) / 31 := by ring
  have e2 : (8 : ℚ) - (30 * s + (8 + 0)) / 31 = 30 * (8 - s) / 31 := by ring
  rw [e1, e2]
  nlinarith [hd]

theorem colExists_speed (s h : ℚ) :
    colExists Reading.speed_mps (histR s h ++ [lastR h]) = true := by
  unfold colExists histR lastR
  rw [List.any_eq_true]
  refine ⟨⟨"A", some 8, some h, none, none, none, none⟩, ?_, rfl⟩
  exact List.mem_append_right _ (List.mem_singleton.mpr rfl)

theorem fieldValues_speed (s h : ℚ) :
    fieldValues Reading.speed_mps (histR s h ++ [lastR h])
      = List.replicate 30 s ++ [8] := by
  unfold fieldValues histR lastR
  rw [List.filterMap_append,
    filterMap_replicate_some Reading.speed_mps _ s rfl 30]
  rfl

theorem zFieldAnomaly_speed (s h : ℚ) (hs : s ≠ 8) :
    zFieldAnomaly Reading.speed_mps (histR s h ++ [lastR h])
      = [⟨"STATISTICAL_ANOMALY", "INFO"⟩] := by
  unfold zFieldAnomaly
  rw [colExists_speed, fieldValues_speed]
  rw [if_pos rfl, if_pos (by simp), if_pos (zLastExceeds3_replicate s hs)]

theorem getLast?_histR (s h : ℚ) :
    (histR s h).getLast?
      = some ⟨"A", some s, some h, none, none, none, none⟩ := by
  unfold histR
  rw [show (30 : ℕ) = 29 + 1 from rfl, List.replicate_succ',
    List.getLast?_concat]

theorem accelAnomaly_fires (s h : ℚ) (h1 : 1 < |8 - s|) :
    accelAnomaly (histR s h ++ [lastR h])
      = [⟨"ACCELERATION_ANOMALY", "WARNING"⟩] := by
  unfold accelAnomaly
  rw [if_pos ⟨colExists_speed s h, by simp [histR]⟩]
  rw [List.getLast?_concat, List.dropLast_concat, getLast?_histR]
  show (if (3 : ℚ) < |(8 - s) * 3| then
    ([⟨"ACCELERATION_ANOMALY", "WARNING"⟩] : List Anomaly) else []) = _
  rw [if_pos]
  rw [abs_mul]
  rw [show |(3 : ℚ)| = 3 by norm_num]
  linarith

theorem stat_mem_statistical (s h : ℚ) (hs : s ≠ 8) :
    (⟨"STATISTICAL_ANOMALY", "INFO"⟩ : Anomaly)
      ∈ statistical_detection (histR s h ++ [lastR h]) := by
  unfold statistical_detection
  rw [if_neg (by simp [histR])]
  refine List.mem_append_left _ (List.mem_append_left _
    (List.mem_append_left _ ?_))
  rw [zFieldAnomaly_speed s h hs]
  exact List.mem_singleton.mpr rfl

theorem accel_mem_statistical (s h : ℚ) (h1 : 1 < |8 - s|) :
    (⟨"ACCELERATION_ANOMALY", "WARNING"⟩ : Anomaly)
      ∈ statistical_detection (histR s h ++ [lastR h]) := by
  unfold statistical_detection
  rw [if_neg (by simp [histR])]
  refine List.mem_append_right _ ?_
  rw [accelAnomaly_fires s h h1]
  exact List.mem_singleton.mpr rfl

theorem check_histR_append (oracle : List Reading → Reading → List Anomaly)
    (s h : ℚ) :
    (check oracle ⟨fun _ => histR s h⟩ (lastR h)).2
      = threshold_detection (lastR h) ++
        statistical_detection (histR s h ++ [lastR h]) ++
        ml_detection oracle (histR s h ++ [lastR h]) (lastR h) ++
        pattern_detection (histR s h ++ [lastR h]) := by
  unfold check
  rw [dequeAppend_of_lt 100 _ _ (by simp [histR])]

theorem mem_check_of_mem_statistical
    (oracle : List Reading → Reading → List Anomaly) (s h : ℚ) (x : Anomaly)
    (hx : x ∈ statistical_detection (histR s h ++ [lastR h])) :
    x ∈ (check oracle ⟨fun _ => histR s h⟩ (lastR h)).2 := by
  rw [check_histR_append]
  exact List.mem_append_left _ (List.mem_append_left _
    (List.mem_append_right _ hx))

/-! Exact evaluation of every other detection component on the C4
scenario: the heading and quality z-checks, the pattern method and the
statistical speed check at s = 8 are all silent. -/

theorem any_replicate_false (p : α → Bool) (a : α) (n : ℕ)
    (hp : p a = false) : (List.replicate n a).any p = false := by
  induction n with
  | zero => rfl
  | succ n ih =>
    rw [List.replicate_succ, List.any_cons, hp, ih]
    rfl

theorem filterMap_id_replicate (x : ℚ) (n : ℕ) :
    List.filterMap id (List.replicate n (some x)) = List.replicate n x := by
  induction n with
  | zero => rfl
  | succ n ih =>
    rw [List.replicate_succ, List.replicate_succ, List.filterMap_cons]
    rw [show (id (some x) : Option ℚ) = some x from rfl, ih]

theorem zip_replicate_succ (a : α) (n : ℕ) :
    (List.replicate (n + 1) a).zip (List.replicate n a)
      = List.replicate n (a, a) := by
  induction n with
  | zero => rfl
  | succ n ih =>
    rw [show n + 1 + 1 = (n + 1) + 1 from rfl, List.replicate_succ,
      List.replicate_succ (n := n), List.zip_cons_cons, ← List.replicate_succ,
      ih, ← List.replicate_succ]

theorem getLast?_replicate_succ (a : ℚ) (n : ℕ) :
    (List.replicate (n + 1) a).getLast? = some a := by
  rw [List.replicate_succ', List.getLast?_concat]

theorem zLastExceeds3_const (a : ℚ) (n : ℕ) :
    zLastExceeds3 (List.replicate (n + 1) a) = false := by
  unfold zLastExceeds3
  apply decide_eq_false
  simp only [List.length_replicate, List.sum_replicate, List.map_replicate,
    nsmul_eq_mul, getLast?_replicate_succ, Option.getD_some]
  push_cast
  intro hcon
  have hn : ((n : ℚ) + 1) ≠ 0 := by positivity
  have e : a - (((n : ℚ) + 1) * a) / ((n : ℚ) + 1) = 0 := by field_simp
  rw [e] at hcon
  simp at hcon

theorem colExists_heading (s h : ℚ) :
    colExists Reading.heading_deg (histR s h ++ [lastR h]) = true := by
  unfold colExists histR lastR
  rw [List.any_eq_true]
  refine ⟨⟨"A", some 8, some h, none, none, none, none⟩, ?_, rfl⟩
  exact List.mem_append_right _ (List.mem_singleton.mpr rfl)

theorem colExists_quality_false (s h : ℚ) :
    colExists Reading.quality (histR s h ++ [lastR h]) = false := by
  unfold colExists histR lastR
  rw [List.any_append, any_replicate_false _ _ _ rfl]
  rfl

theorem circularCols_false (s h : ℚ) :
    circularCols (histR s h ++ [lastR h]) = false := by
  unfold circularCols
  have hx : colExists Reading.plant_x (histR s h ++ [lastR h]) = false := by
    unfold colExists histR lastR
    rw [List.any_append, any_replicate_false _ _ _ rfl]
    rfl
  rw [hx]
  rfl

theorem circularCheck_of_cols_false (hist : List Reading)
    (hc : circularCols hist = false) : circularCheck hist = [] := by
  unfold circularCheck
  rw [if_neg]
  rw [hc]
  exact Bool.false_ne_true

theorem fieldValues_heading (s h : ℚ) :
    fieldValues Reading.heading_deg (histR s h ++ [lastR h])
      = List.replicate 31 h := by
  unfold fieldValues histR lastR
  rw [List.filterMap_append,
    filterMap_replicate_some Reading.heading_deg _ h rfl 30]
  rw [show (31 : ℕ) = 30 + 1 from rfl, List.replicate_succ']
  rfl

theorem zFieldAnomaly_heading_silent (s h : ℚ) :
    zFieldAnomaly Reading.heading_deg (histR s h ++ [lastR h]) = [] := by
  unfold zFieldAnomaly
  rw [colExists_heading s h, fieldValues_heading s h]
  rw [if_pos rfl, if_pos (by simp)]
  rw [show (31 : ℕ) = 30 + 1 from rfl, zLastExceeds3_const h 30]
  rfl

theorem zFieldAnomaly_quality_silent (s h : ℚ) :
    zFieldAnomaly Reading.quality (histR s h ++ [lastR h]) = [] := by
  unfold zFieldAnomaly
  rw [if_neg]
  rw [colExists_quality_false s h]
  exact Bool.false_ne_true

theorem zFieldAnomaly_speed_eight (h : ℚ) :
    zFieldAnomaly Reading.speed_mps (histR 8 h ++ [lastR h]) = [] := by
  unfold zFieldAnomaly
  rw [colExists_speed 8 h, fieldValues_speed 8 h, ← List.replicate_succ']
  rw [if_pos rfl, if_pos (by simp), zLastExceeds3_const 8 30]
  rfl

theorem accelAnomaly_eval (s h : ℚ) :
    accelAnomaly (histR s h ++ [lastR h])
      = if 3 < |(8 - s) * 3| then [⟨"ACCELERATION_ANOMALY", "WARNING"⟩]
        else [] := by
  unfold accelAnomaly
  rw [if_pos ⟨colExists_speed s h, by simp [histR]⟩]
  rw [List.getLast?_concat, List.dropLast_concat, getLast?_histR]
  rfl

theorem ml_detection_oracle (oracle : List Reading → Reading → List Anomaly)
    (s h : ℚ) :
    ml_detection oracle (histR s h ++ [lastR h]) (lastR h)
      = oracle (histR s h ++ [lastR h]) (lastR h) := by
  unfold ml_detection
  rw [if_neg (by simp [histR])]

theorem statistical_eval (s h : ℚ) :
    statistical_detection (histR s h ++ [lastR h])
      = (if s = 8 then [] else [⟨"STATISTICAL_ANOMALY", "INFO"⟩])
        ++ (if 1 < |8 - s| then [⟨"ACCELERATION_ANOMALY", "WARNING"⟩]
            else []) := by
  unfold statistical_detection
  rw [if_neg (by simp [histR])]
  rw [zFieldAnomaly_heading_silent s h, zFieldAnomaly_quality_silent s h,
    accelAnomaly_eval s h]
  have hiff : (3 < |(8 - s) * 3|) ↔ (1 < |8 - s|) := by
    rw [abs_mul, show |(3 : ℚ)| = 3 by norm_num]
    constructor <;> intro <;> linarith
  rw [if_congr hiff rfl rfl]
  by_cases hs : s = 8
  · subst hs
    rw [zFieldAnomaly_speed_eight h, if_pos rfl]
    simp
  · rw [zFieldAnomaly_speed s h hs, if_neg hs]
    simp

theorem idleCheck_nil (hist : List Reading) : idleCheck hist = [] := by
  have key : ∀ (l : List (Option ℚ)) (p : Option ℚ → Bool),
      l.length ≤ 30 → ((l.filter p).length : ℚ) / 3 ≤ 300 := by
    intro l p hl
    have h1 := List.length_filter_le p l
    have h2 : ((l.filter p).length : ℚ) ≤ 30 := by
      exact_mod_cast le_trans h1 hl
    linarith
  unfold idleCheck
  split
  · rw [if_neg]
    simp only [decide_eq_true_eq, not_lt]
    apply key
    rw [List.length_drop, List.length_map]
    omega
  · rfl

theorem erraticCheck_silent (s h : ℚ) :
    erraticCheck (histR s h ++ [lastR h]) = [] := by
  have hmap : (histR s h ++ [lastR h]).map Reading.heading_deg
      = List.replicate 31 (some h) := by
    unfold histR lastR
    rw [List.map_append, List.map_replicate]
    rw [show (31 : ℕ) = 30 + 1 from rfl, List.replicate_succ']
    rfl
  have hlen : (histR s h ++ [lastR h]).length = 31 := by simp [histR, lastR]
  unfold erraticCheck
  rw [colExists_heading s h, if_pos rfl, hmap, hlen]
  rw [show (31 : ℕ) - 10 = 21 from rfl, List.drop_replicate,
    show (31 : ℕ) - 21 = 10 from rfl]
  rw [if_pos (by
    rw [List.all_eq_true]
    intro x hx
    rw [List.eq_of_mem_replicate hx]
    rfl)]
  rw [if_neg]
  simp only [decide_eq_true_eq, not_lt, filterMap_id_replicate,
    List.tail_replicate, show (10 : ℕ) - 1 = 9 from rfl,
    show (10 : ℕ) = 9 + 1 from rfl, zip_replicate_succ, List.map_replicate,
    sub_self, abs_zero, List.sum_replicate, List.length_replicate, smul_eq_mul]
  rw [show min (0 : ℚ) (360 - 0) = 0 by norm_num]
  norm_num

theorem pattern_eval (s h : ℚ) :
    pattern_detection (histR s h ++ [lastR h]) = [] := by
  unfold pattern_detection
  rw [if_neg (by simp [histR])]
  rw [idleCheck_nil, circularCheck_of_cols_false _ (circularCols_false s h),
    erraticCheck_silent s h]
  rfl

/-! ## AnomalyDetector.detect_collision_risk
(src/analytics/anomaly_detector.py lines 364-407)

A fleet-snapshot row carries position, speed and heading; the velocity
vector is `speed * (cos(radians(heading)), sin(radians(heading)))`.
Distances and norms use real square roots. -/

structure FleetRow where
  agv_id : String
  plant_x : ℝ
  plant_y : ℝ
  speed_mps : ℝ
  heading_deg : ℝ

structure CollisionRisk where
  agv1 : String
  agv2 : String
  severity : String

noncomputable def velX (r : FleetRow) : ℝ :=
  r.speed_mps * Real.cos (r.heading_deg * Real.pi / 180)

noncomputable def velY (r : FleetRow) : ℝ :=
  r.speed_mps * Real.sin (r.heading_deg * Real.pi / 180)

noncomputable def pairDistance (a b : FleetRow) : ℝ :=
  Real.sqrt ((a.plant_x - b.plant_x) ^ 2 + (a.plant_y - b.plant_y) ^ 2)

/-- `np.linalg.norm(v1 - v2)` — the magnitude of the relative velocity. -/
noncomputable def relVelocity (a b : FleetRow) : ℝ :=
  Real.sqrt ((velX a - velX b) ^ 2 + (velY a - velY b) ^ 2)

open Classical in
/-- The body of the pairwise loop of `detect_collision_risk`: distance
below the 2 m collision threshold, positive relative velocity,
time-to-collision below 5 s; CRITICAL below 2 s, else WARNING. -/
noncomputable def pairRisk (a b : FleetRow) : List CollisionRisk :=
  if pairDistance a b < 2 then
    if 0 < relVelocity a b then
      if pairDistance a b / relVelocity a b < 5 then
        [⟨a.agv_id, b.agv_id,
          if pairDistance a b / relVelocity a b < 2 then "CRITICAL"
          else "WARNING"⟩]
      else []
    else []
  else []

/-- The index pairs (i, j), i < j, in loop order. -/
def allPairs : List α → List (α × α)
  | [] => []
  | x :: xs => xs.map (fun y => (x, y)) ++ allPairs xs

noncomputable def detect_collision_risk (fleet : List FleetRow) :
    List CollisionRisk :=
  if fleet.length < 2 then []
  else (allPairs fleet).flatMap (fun p => pairRisk p.1 p.2)

def rowA : FleetRow := ⟨"AGV1", 0, 0, 1, 0⟩

def rowB : FleetRow := ⟨"AGV2", 1, 0, 1, 180⟩

theorem pairDistance_rowAB : pairDistance rowA rowB = 1 := by
  unfold pairDistance rowA rowB
  norm_num

theorem relVelocity_rowAB : relVelocity rowA rowB = 2 := by
  unfold relVelocity velX velY rowA rowB
  simp only
  rw [show (0 : ℝ) * Real.pi / 180 = 0 by ring,
    show (180 : ℝ) * Real.pi / 180 = Real.pi by ring,
    Real.cos_zero, Real.sin_zero, Real.cos_pi, Real.sin_pi]
  rw [show (1 * 1 - 1 * (-1 : ℝ)) ^ 2 + (1 * 0 - 1 * 0) ^ 2 = 2 ^ 2 by ring]
  exact Real.sqrt_sq (by norm_num)

theorem check_authorization_of_restricted (zones : List (String × Zone))
    (registry : String → Option String) (agv_id zone_id : String)
    (zone : Zone) (hz : dictLookup zones zone_id = some zone)
    (hr : zone.zone_type = "RESTRICTED") :
    check_authorization zones registry agv_id zone_id = true := by
  unfold check_authorization
  rw [hz]
  have hne : ¬ (zone.zone_type = "MAINTENANCE") := by
    rw [hr]
    decide
  simp [hne]

end AGV

open AGV

/-- C1 (counterexample): a `BufferManager` of capacity 2 receiving the
items 1, 2, 3 does NOT drop the newest item and does NOT increment the
`dropped` counter: it ends with buffer `[2, 3]` (the oldest item 1 was
evicted) and `dropped = 0`, refuting the claimed buffer `[1, 2]` with
`dropped = 1`. -/
theorem C1_counterexample :
    (runBufOps [BufOp.add 1 0, BufOp.add 2 0, BufOp.add 3 0]
        (BufferManager.init ℕ 2)).buffer = [2, 3] ∧
    (runBufOps [BufOp.add 1 0, BufOp.add 2 0, BufOp.add 3 0]
        (BufferManager.init ℕ 2)).stats.dropped = 0 ∧
    ¬ ((runBufOps [BufOp.add 1 0, BufOp.add 2 0, BufOp.add 3 0]
        (BufferManager.init ℕ 2)).buffer = [1, 2] ∧
       (runBufOps [BufOp.add 1 0, BufOp.add 2 0, BufOp.add 3 0]
        (BufferManager.init ℕ 2)).stats.dropped = 1) := by
  refine ⟨by decide, by decide, ?_⟩
  intro hcl
  have : ([2, 3] : List ℕ) = [1, 2] := by
    have h2 : (runBufOps [BufOp.add 1 0, BufOp.add 2 0, BufOp.add 3 0]
        (BufferManager.init ℕ 2)).buffer = [2, 3] := by decide
    rw [← h2]; exact hcl.1
  simp at this

/-- C1 (amended): for a `BufferManager` of capacity N, after any sequence
of `add` and `get_batch` calls the main buffer's size never exceeds N;
an `add` performed while the buffer is already full (N > 0) evicts the
OLDEST buffered item, appends the incoming item on the right, increments
`added`, and leaves the `dropped` counter unchanged (it is never
incremented, being reachable only from an unreachable `except` branch). -/
theorem C1_buffer_capacity :
    (∀ (α : Type) (N : ℕ) (ops : List (BufOp α)),
      (runBufOps ops (BufferManager.init α N)).buffer.length ≤ N) ∧
    (∀ (α : Type) (m : BufferManager α) (d : α) (now : ℤ),
      0 < m.max_size → m.buffer.length = m.max_size →
      ((m.add d now false).1.buffer = m.buffer.tail ++ [d] ∧
       (m.add d now false).1.stats.dropped = m.stats.dropped ∧
       (m.add d now false).1.stats.added = m.stats.added + 1)) := by
  constructor
  · intro α N ops
    have h := runBufOps_buffer_le ops (BufferManager.init α N)
      (by simp [BufferManager.init])
    rwa [runBufOps_max_size ops (BufferManager.init α N)] at h
  · intro α m d now hpos hfull
    refine ⟨?_, rfl, rfl⟩
    simp only [BufferManager.add, if_neg Bool.false_ne_true]
    exact dequeAppend_of_full m.max_size m.buffer d hpos hfull

/-- C1 (witness): the capacity bound applied to the concrete run of three
adds into a capacity-2 buffer, and the full-buffer eviction behaviour
applied to a concrete full buffer `[5, 6]` of capacity 2 receiving 7. -/
theorem C1_buffer_capacity_witness :
    (runBufOps [BufOp.add 1 0, BufOp.add 2 0, BufOp.add 3 0]
        (BufferManager.init ℕ 2)).buffer.length ≤ 2 ∧
    ((⟨2, [5, 6], [], ⟨2, 0, 0, 0⟩⟩ : BufferManager ℕ).add 7 0
        false).1.buffer = [6, 7] := by
  constructor
  · exact C1_buffer_capacity.1 ℕ 2 [BufOp.add 1 0, BufOp.add 2 0, BufOp.add 3 0]
  · have h := C1_buffer_capacity.2 ℕ ⟨2, [5, 6], [], ⟨2, 0, 0, 0⟩⟩ 7 0
      (by decide) (by decide)
    simpa using h.1

/-- C2: a failed batch write re-enqueues every item of the failed batch
into the retry buffer with attempt count 1 (confirmed on a concrete
failed 5-item batch), BUT no operation of the consumer ever retries or
removes a retry item: every item in the retry buffer always has attempt
count exactly 1 after any sequence of operations, and a successful flush
cycle leaves the retry buffer untouched — the periodic retry cycle the
claim describes does not exist in the code. -/
theorem C2_retry_buffer_never_drained :
    ((runConsOps [ConsOp.msg 1, ConsOp.msg 2, ConsOp.msg 3, ConsOp.msg 4,
        ConsOp.msg 5, ConsOp.flush 7 false]
        (BufferManager.init ℕ 10000)).retry_buffer
      = [⟨1, 7, 1⟩, ⟨2, 7, 1⟩, ⟨3, 7, 1⟩, ⟨4, 7, 1⟩, ⟨5, 7, 1⟩]) ∧
    (∀ (α : Type) (ops : List (ConsOp α)),
      ∀ it ∈ (runConsOps ops (BufferManager.init α 10000)).retry_buffer,
        it.attempts = 1) ∧
    (∀ (α : Type) (m : BufferManager α) (now : ℤ),
      (flush_buffer m now true).retry_buffer = m.retry_buffer) := by
  refine ⟨by decide, ?_, ?_⟩
  · intro α ops
    exact runConsOps_attempts_one ops (BufferManager.init α 10000)
      (by simp [BufferManager.init])
  · intro α m now
    exact flush_buffer_success_retry m now

/-- C2 (witness): the attempts-stay-at-1 invariant applied to a concrete
run (one message, one failed flush), and the successful-flush case
applied to the initial state. -/
theorem C2_retry_buffer_witness :
    (∀ it ∈ (runConsOps [ConsOp.msg 1, ConsOp.flush 0 false]
        (BufferManager.init ℕ 10000)).retry_buffer, it.attempts = 1) ∧
    (flush_buffer (BufferManager.init ℕ 10000) 0 true).retry_buffer = [] := by
  constructor
  · exact C2_retry_buffer_never_drained.2.1 ℕ [ConsOp.msg 1, ConsOp.flush 0 false]
  · rw [C2_retry_buffer_never_drained.2.2 ℕ (BufferManager.init ℕ 10000) 0]
    rfl

/-- C3: `DataValidator.validate` accepts a reading iff the entity id is a
non-empty string, each present field lies in its range (lat ∈ [-90,90],
lon ∈ [-180,180], heading ∈ [0,360], speed ∈ [0,10], quality ∈ [0,1],
battery ∈ [0,100]), and any present parseable timestamp is at most one
hour old; and one call updates exactly the matching valid/invalid
counter. -/
theorem C3_validator_accepts_iff :
    ∀ (d : RawData) (now : ℤ) (st : VStats),
    ((validate st d now).1 = true ↔
      ((∃ s, d.agv_id = some s ∧ s ≠ "") ∧
       (∀ v, d.lat = some v → -90 ≤ v ∧ v ≤ 90) ∧
       (∀ v, d.lon = some v → -180 ≤ v ∧ v ≤ 180) ∧
       (∀ v, d.heading_deg = some v → 0 ≤ v ∧ v ≤ 360) ∧
       (∀ v, d.speed_mps = some v → 0 ≤ v ∧ v ≤ 10) ∧
       (∀ v, d.quality = some v → 0 ≤ v ∧ v ≤ 1) ∧
       (∀ v, d.battery_percent = some v → 0 ≤ v ∧ v ≤ 100) ∧
       (∀ t, d.ts = some (TsParse.parsed t) → now - t ≤ 3600))) ∧
    (validate st d now).2.valid
      = st.valid + (if (validate st d now).1 then 1 else 0) ∧
    (validate st d now).2.invalid
      = st.invalid + (if (validate st d now).1 then 0 else 1) := by
  intro d now st
  refine ⟨?_, ?_, ?_⟩
  · rw [validate_fst_iff, schemaOK_iff, business_rules_iff]
    constructor
    · rintro ⟨⟨hA, hLat, hLon, hHead, hSmin, hQual, hBatt⟩, hTs, hSmax⟩
      exact ⟨hA, hLat, hLon, hHead,
        fun v hv => ⟨hSmin v hv, hSmax v hv⟩, hQual, hBatt, hTs⟩
    · rintro ⟨hA, hLat, hLon, hHead, hS, hQual, hBatt, hTs⟩
      exact ⟨⟨hA, hLat, hLon, hHead, fun v hv => (hS v hv).1, hQual, hBatt⟩,
        hTs, fun v hv => (hS v hv).2⟩
  · unfold validate
    split_ifs <;> simp_all
  · unfold validate
    split_ifs <;> simp_all

/-- C3 (witness): a concrete in-range reading is accepted and bumps the
valid counter. -/
theorem C3_validator_witness :
    (validate ⟨0, 0⟩
      ⟨some "AGV1", some (TsParse.parsed 500), some 10, some 20, none, none,
       some 90, some 2, some (1/2), some 80, none⟩ 1000).1 = true ∧
    (validate ⟨0, 0⟩
      ⟨some "AGV1", some (TsParse.parsed 500), some 10, some 20, none, none,
       some 90, some 2, some (1/2), some 80, none⟩ 1000).2.valid
      = 0 + (if (validate ⟨0, 0⟩
      ⟨some "AGV1", some (TsParse.parsed 500), some 10, some 20, none, none,
       some 90, some 2, some (1/2), some 80, none⟩ 1000).1 then 1 else 0) := by
  constructor
  · exact (C3_validator_accepts_iff
      ⟨some "AGV1", some (TsParse.parsed 500), some 10, some 20, none, none,
       some 90, some 2, some (1/2), some 80, none⟩ 1000 ⟨0, 0⟩).1.mpr
      ⟨⟨"AGV1", rfl, by decide⟩,
       by rintro v ⟨⟩; norm_num, by rintro v ⟨⟩; norm_num,
       by rintro v ⟨⟩; norm_num, by rintro v ⟨⟩; norm_num,
       by rintro v ⟨⟩; norm_num, by rintro v ⟨⟩; norm_num,
       by rintro t ⟨⟩; norm_num⟩
  · exact (C3_validator_accepts_iff
      ⟨some "AGV1", some (TsParse.parsed 500), some 10, some 20, none, none,
       some 90, some 2, some (1/2), some 80, none⟩ 1000 ⟨0, 0⟩).2.1

/-- C6: the memoization cache of `to_plant_coords` grows without bound —
there is NO fixed bound N under which the cache size stays after
sequences of calls with distinct (lat, lon) pairs: feeding n pairwise
distinct pairs leaves the cache at exactly n entries (shown for the
identity projection and identity affine calibration). -/
theorem C6_cache_unbounded :
    ¬ ∃ N : ℕ, ∀ n : ℕ,
      (runTransforms (fun lon lat => (lon, lat)) (some ⟨1, 0, 0, 0, 1, 0⟩)
        ((List.range n).map distinctInput) ⟨[]⟩).cache.length ≤ N := by
  rintro ⟨N, hN⟩
  have h := hN (N + 1)
  rw [runTransforms_cache_length] at h
  omega

/-- C7: a reading already carrying local plant coordinates is passed
through unchanged by `to_plant_coords` — same values out, cache
untouched — for every projection, every calibration matrix and every
value of the reading's other fields. -/
theorem C7_local_passthrough :
    ∀ (transformer : ℚ → ℚ → ℚ × ℚ) (affine : Option AffineM)
      (st : TransformState) (d : TData) (px py : ℚ),
      d.plant_x = some px → d.plant_y = some py →
      to_plant_coords transformer affine st d = ((px, py), st) := by
  intro transformer affine st d px py hx hy
  simp only [to_plant_coords, hx, hy]

/-- C5: `check_zone_rules` can NEVER return an unauthorized-access
violation, whatever the zone type, registry status, occupancy or speed:
the RESTRICTED branch calls `_check_authorization`, which only denies
zones whose type is MAINTENANCE (so a RESTRICTED zone always passes),
and a MAINTENANCE zone never reaches the authorization branch at all.
In particular an ACTIVE-status entity in a MAINTENANCE zone yields no
violation. -/
theorem C5_unauthorized_access_never_emitted :
    (∀ (zones : List (String × Zone)) (registry : String → Option String)
       (occupancy : ℕ) (agv_id zone_id : String) (speed : Option ℚ),
      (check_zone_rules zones registry occupancy agv_id zone_id speed).all
        (fun v => !(v.vtype == "UNAUTHORIZED_ACCESS")) = true) ∧
    check_zone_rules [("Z1", ⟨"Z1", "MAINTENANCE", none, 5⟩)]
      (fun _ => some "ACTIVE") 0 "AGV7" "Z1" none = [] := by
  constructor
  · intro zones registry occupancy agv_id zone_id speed
    rw [List.all_eq_true]
    intro v hv
    unfold check_zone_rules at hv
    split at hv
    · simp at hv
    · rename_i zone hz
      simp only [List.mem_append] at hv
      rcases hv with (hv | hv) | hv
      · split at hv
        · simp only [List.mem_singleton] at hv
          subst hv
          decide
        · simp at hv
      · split at hv
        · rename_i hcond
          rw [Bool.and_eq_true] at hcond
          have hr : zone.zone_type = "RESTRICTED" := of_decide_eq_true hcond.1
          rw [check_authorization_of_restricted zones registry agv_id
            zone_id zone hz hr] at hcond
          simp at hcond
        · simp at hv
      · split at hv
        · simp only [List.mem_singleton] at hv
          subst hv
          decide
        · simp at hv
  · decide

/-- C7 (witness): pass-through on a concrete reading with a nontrivial
projection, a nontrivial calibration matrix and present (lat, lon). -/
theorem C7_local_passthrough_witness :
    to_plant_coords (fun lon lat => (lon + lat, lon - lat))
      (some ⟨2, 0, 1, 0, 2, 1⟩) ⟨[]⟩ ⟨some 3, some 4, some 50, some 60⟩
      = ((3, 4), ⟨[]⟩) :=
  C7_local_passthrough (fun lon lat => (lon + lat, lon - lat))
    (some ⟨2, 0, 1, 0, 2, 1⟩) ⟨[]⟩ ⟨some 3, some 4, some 50, some 60⟩
    3 4 rfl rfl

/-- C9: when the payload carries an entity identifier, the reading is
processed under that identifier no matter what the topic yields; the
topic-derived segment is used only when the payload lacks the field. -/
theorem C9_payload_id_precedence :
    (∀ (p : String) (topic : String) (payload : Option String),
      payload = some p → resolveAgvId payload topic = some p) ∧
    (∀ topic : String, 2 ≤ (topicParts topic).length →
      resolveAgvId none topic = some ((topicParts topic).getD 1 "")) := by
  constructor
  · intro p topic payload hp
    subst hp
    unfold resolveAgvId
    split <;> simp
  · intro topic h
    unfold resolveAgvId
    rw [if_pos h]
    simp

/-- C9 (witness): on topic `rtls/AGV9/position`, a payload id `X` wins;
an absent payload id falls back to the topic segment `AGV9`. -/
theorem C9_payload_id_precedence_witness :
    resolveAgvId (some "X") "rtls/AGV9/position" = some "X" ∧
    resolveAgvId none "rtls/AGV9/position" = some "AGV9" := by
  constructor
  · exact C9_payload_id_precedence.1 "X" "rtls/AGV9/position"
      (some "X") rfl
  · have h := C9_payload_id_precedence.2 "rtls/AGV9/position" (by decide)
    rw [h]
    decide

/-- C4 (counterexample): for the concrete instance of the claimed
scenario with common speed 1 m/s and heading 90° (and the learned-model
oracle silent), `check` on the speed-8 reading ALSO reports a
STATISTICAL_ANOMALY from the statistical method — the z-score of the
last speed over the 31-point distribution is √30 ≈ 5.48 > 3 — refuting
"no anomaly from any other detection method". -/
theorem C4_counterexample :
    (⟨"STATISTICAL_ANOMALY", "INFO"⟩ : Anomaly)
      ∈ (check (fun _ _ => []) ⟨fun _ => histR 1 90⟩ (lastR 90)).2 :=
  mem_check_of_mem_statistical (fun _ _ => []) 1 90 _
    (stat_mem_statistical 1 90 (by norm_num))

/-- C4 (amended): on a history of 30 readings with identical speed s and
identical heading, followed by one reading with speed 8, `check` reports
EXACTLY: the SPEED_VIOLATION (WARNING) from the threshold method —
unconditionally — followed by a STATISTICAL_ANOMALY (INFO) on the speed
field iff s ≠ 8 (the z-score of the last speed is √30 > 3), followed by
an ACCELERATION_ANOMALY (WARNING) iff |8 - s| > 1 m/s, followed by
whatever the external learned-model scorer returns (its ≥20-point gate
passes).  The heading and quality z-checks and the entire pattern method
stay silent, as the original claim asserted. -/
theorem C4_check_amended :
    ∀ (oracle : List Reading → Reading → List Anomaly) (s h : ℚ),
      (check oracle ⟨fun _ => histR s h⟩ (lastR h)).2
        = [⟨"SPEED_VIOLATION", "WARNING"⟩]
          ++ (if s = 8 then [] else [⟨"STATISTICAL_ANOMALY", "INFO"⟩])
          ++ (if 1 < |8 - s| then [⟨"ACCELERATION_ANOMALY", "WARNING"⟩]
              else [])
          ++ oracle (histR s h ++ [lastR h]) (lastR h) := by
  intro oracle s h
  rw [check_histR_append, threshold_lastR, statistical_eval s h,
    ml_detection_oracle oracle s h, pattern_eval s h]
  simp [List.append_assoc]

/-- C4 (witness): at speed 1, heading 90 and a silent learned-model
oracle, the output is exactly the speed violation, the statistical speed
anomaly and the acceleration anomaly — nothing else. -/
theorem C4_check_amended_witness :
    (check (fun _ _ => []) ⟨fun _ => histR 1 90⟩ (lastR 90)).2
      = [⟨"SPEED_VIOLATION", "WARNING"⟩, ⟨"STATISTICAL_ANOMALY", "INFO"⟩,
         ⟨"ACCELERATION_ANOMALY", "WARNING"⟩] := by
  rw [C4_check_amended (fun _ _ => []) 1 90]
  rw [if_neg (by norm_num : (1 : ℚ) ≠ 8)]
  rw [if_pos (by
    rw [show |(8 : ℚ) - 1| = 7 by rw [abs_of_pos] <;> norm_num]
    norm_num)]
  rfl

/-- C10: `check` appends the incoming reading to its entity's ring
buffer BEFORE any detection method runs: the new history is the deque-
append of the old one, every detection method receives that post-append
history (so the 10/20/30-point gates count the incoming reading — the
post-append length is the old length plus one), and the z-score value
list for a present field ends with the very value being judged. -/
theorem C10_history_appended_first :
    ∀ (oracle : List Reading → Reading → List Anomaly)
      (st : DetectorState) (d : Reading),
      (check oracle st d).1.history d.agv_id
        = dequeAppend 100 (st.history d.agv_id) d ∧
      (check oracle st d).2
        = threshold_detection d ++
          statistical_detection (dequeAppend 100 (st.history d.agv_id) d) ++
          ml_detection oracle (dequeAppend 100 (st.history d.agv_id) d) d ++
          pattern_detection (dequeAppend 100 (st.history d.agv_id) d) ∧
      ((st.history d.agv_id).length < 100 →
        (dequeAppend 100 (st.history d.agv_id) d).length
          = (st.history d.agv_id).length + 1) ∧
      (∀ v, d.speed_mps = some v → (st.history d.agv_id).length < 100 →
        (fieldValues Reading.speed_mps
          (dequeAppend 100 (st.history d.agv_id) d)).getLast? = some v) := by
  intro oracle st d
  refine ⟨by simp [check], rfl, ?_, ?_⟩
  · intro hlt
    rw [dequeAppend_of_lt 100 _ _ hlt]
    simp
  · intro v hv hlt
    rw [dequeAppend_of_lt 100 _ _ hlt]
    unfold fieldValues
    rw [List.filterMap_append]
    rw [show List.filterMap Reading.speed_mps [d] = [v] by
      simp [List.filterMap_cons, hv]]
    exact List.getLast?_concat _

/-- C10 (witness): checking a first reading for entity "A" leaves its
history at exactly that one reading, and the speed z-score value list
ends with the incoming speed. -/
theorem C10_history_appended_witness :
    (check (fun _ _ => []) ⟨fun _ => []⟩
        ⟨"A", some 1, none, none, none, none, none⟩).1.history
        (Reading.mk "A" (some 1) none none none none none).agv_id
      = [⟨"A", some 1, none, none, none, none, none⟩] ∧
    (fieldValues Reading.speed_mps
      (dequeAppend 100 [] ⟨"A", some 1, none, none, none, none, none⟩)).getLast?
      = some 1 := by
  have hh := C10_history_appended_first (fun _ _ => []) ⟨fun _ => []⟩
    ⟨"A", some 1, none, none, none, none, none⟩
  constructor
  · rw [hh.1]
    rfl
  · exact hh.2.2.2 1 rfl (by simp)

/-- C8: for the two-entity fleet at (0,0) and (1,0), both at 1 m/s with
headings 0° and 180° (closing head-on), `detect_collision_risk` returns
exactly one risk, CRITICAL, for that pair (distance 1 < 2, relative
speed 2, time-to-collision 0.5 < 2); and in general a pair is reported
iff its distance is below 2 m, its relative speed is positive and its
time-to-collision is below 5 s — CRITICAL exactly when below 2 s. -/
theorem C8_collision_risk :
    detect_collision_risk [rowA, rowB] = [⟨"AGV1", "AGV2", "CRITICAL"⟩] ∧
    (∀ a b : FleetRow,
      (pairRisk a b ≠ [] ↔
        pairDistance a b < 2 ∧ 0 < relVelocity a b ∧
          pairDistance a b / relVelocity a b < 5) ∧
      (∀ r, pairRisk a b = [r] →
        (r.severity = "CRITICAL" ↔
          pairDistance a b / relVelocity a b < 2))) := by
  constructor
  · unfold detect_collision_risk
    rw [if_neg (by norm_num)]
    show pairRisk rowA rowB ++ ([] ++ []) = _
    unfold pairRisk
    rw [pairDistance_rowAB, relVelocity_rowAB]
    norm_num
    exact ⟨rfl, rfl⟩
  · intro a b
    constructor
    · unfold pairRisk
      split_ifs <;> simp_all
    · intro r hr
      unfold pairRisk at hr
      split_ifs at hr with h1 h2 h3 h4
      · simp only [List.cons.injEq, and_true] at hr
        rw [← hr]
        simp [h4]
      · simp only [List.cons.injEq, and_true] at hr
        rw [← hr]
        have hwc : ¬ (("WARNING" : String) = "CRITICAL") := by decide
        simp [hwc, h4]

/-- C8 (witness): the general pair characterization applied to the
concrete head-on rows: the pair is reported, and the reported severity
is CRITICAL since the time-to-collision 0.5 is below 2 s. -/
theorem C8_collision_risk_witness :
    pairRisk rowA rowB ≠ [] := by
  refine (C8_collision_risk.2 rowA rowB).1.mpr ⟨?_, ?_, ?_⟩
  · rw [pairDistance_rowAB]
    norm_num
  · rw [relVelocity_rowAB]
    norm_num
  · rw [pairDistance_rowAB, relVelocity_rowAB]
    norm_num
